import Mathlib

/-!
Verification of the scroll-progress / parallax / animation-registry core of the
portfolio repository. JavaScript numbers are modelled as rationals; stateful
React pieces (the animation registry, the parallax hook, DOM queries) are
modelled as explicit state records, pure transition functions, and action
traces.
-/

/-- Embedding of `calculateScrollProgress` (AnimationContext): normalized
scroll progress clamped to the unit interval, 0 on degenerate geometry. -/
def calculateScrollProgress (scrollY documentHeight viewportHeight : ℚ) : ℚ :=
  if documentHeight ≤ viewportHeight then 0
  else if scrollY < 0 then 0
  else
    let maxScroll := documentHeight - viewportHeight
    if maxScroll ≤ 0 then 0
    else max 0 (min 1 (scrollY / maxScroll))

/-- Optional scroll-progress window of a parallax layer (source field names
`start` and `end`; `end` is a reserved word, rendered `stop`). -/
structure ParallaxBounds where
  start : ℚ
  stop : ℚ
deriving DecidableEq

/-- Embedding of `calculateParallaxPosition` (useParallax.ts): remap the
scroll progress through the optional bounds window, then scale by the base
range and the speed multiplier. -/
def calculateParallaxPosition (scrollProgress speedMultiplier baseRange : ℚ)
    (bounds : Option ParallaxBounds) : ℚ :=
  let effectiveProgress :=
    match bounds with
    | none => scrollProgress
    | some b =>
        if scrollProgress < b.start then 0
        else if b.stop < scrollProgress then 1
        else (scrollProgress - b.start) / (b.stop - b.start)
  effectiveProgress * baseRange * speedMultiplier

/-- Embedding of `calculatePositionDelta` (useParallax.ts). -/
def calculatePositionDelta (scrollDelta speedMultiplier baseRange : ℚ) : ℚ :=
  scrollDelta * baseRange * speedMultiplier

/-- C1: `calculateScrollProgress` always lies in the unit interval, is 0 when
the document fits in the viewport or the scroll offset is negative, is 1 once
the scroll offset reaches the maximal scroll, otherwise equals
`scrollY / (documentHeight - viewportHeight)`; the five concrete sample
points of the spec evaluate as stated. -/
theorem calculateScrollProgress_spec :
    (∀ y d v : ℚ,
      (0 ≤ calculateScrollProgress y d v ∧ calculateScrollProgress y d v ≤ 1) ∧
      (d ≤ v → calculateScrollProgress y d v = 0) ∧
      (y < 0 → calculateScrollProgress y d v = 0) ∧
      (v < d → d - v ≤ y → calculateScrollProgress y d v = 1) ∧
      (v < d → 0 ≤ y → y < d - v → calculateScrollProgress y d v = y / (d - v))) ∧
    calculateScrollProgress 0 2000 1000 = 0 ∧
    calculateScrollProgress 500 2000 1000 = 1/2 ∧
    calculateScrollProgress 1000 2000 1000 = 1 ∧
    calculateScrollProgress (-100) 2000 1000 = 0 ∧
    calculateScrollProgress 1500 2000 1000 = 1 := by
  refine ⟨fun y d v => ⟨?_, ?_, ?_, ?_, ?_⟩, ?_, ?_, ?_, ?_, ?_⟩
  · by_cases h1 : d ≤ v
    · simp [calculateScrollProgress, h1]
    by_cases h2 : y < 0
    · simp [calculateScrollProgress, h1, h2]
    by_cases h3 : d - v ≤ 0
    · simp [calculateScrollProgress, h1, h2, h3]
    · simp only [calculateScrollProgress, h1, h2, h3, if_false]
      refine ⟨le_max_left 0 _, max_le (by norm_num) (min_le_left 1 _)⟩
  · intro h
    unfold calculateScrollProgress
    simp [h]
  · intro h
    unfold calculateScrollProgress
    split
    · rfl
    · simp [h]
  · intro hdv hy
    have h1 : ¬ d ≤ v := not_le.mpr hdv
    have h2 : (0 : ℚ) < d - v := by linarith
    have h3 : ¬ y < 0 := by push_neg; linarith
    have h4 : ¬ d - v ≤ 0 := not_le.mpr h2
    have h5 : (1 : ℚ) ≤ y / (d - v) := (one_le_div h2).mpr hy
    unfold calculateScrollProgress
    simp only [h1, if_false, h3, if_false, h4, if_false]
    rw [min_eq_left h5]
    exact max_eq_right zero_le_one
  · intro hdv hy0 hylt
    have h1 : ¬ d ≤ v := not_le.mpr hdv
    have h2 : (0 : ℚ) < d - v := by linarith
    have h3 : ¬ y < 0 := not_lt.mpr hy0
    have h4 : ¬ d - v ≤ 0 := not_le.mpr h2
    have h5 : y / (d - v) ≤ 1 := by
      rw [div_le_one h2]; linarith
    have h6 : 0 ≤ y / (d - v) := div_nonneg hy0 (le_of_lt h2)
    unfold calculateScrollProgress
    simp only [h1, if_false, h3, if_false, h4, if_false]
    rw [min_eq_right h5, max_eq_right h6]
  · norm_num [calculateScrollProgress]
  · norm_num [calculateScrollProgress]
  · norm_num [calculateScrollProgress]
  · norm_num [calculateScrollProgress]
  · norm_num [calculateScrollProgress]

/-- Witness for C1: the generic fraction formula instantiated at
`(500, 2000, 1000)` after discharging its three hypotheses. -/
theorem calculateScrollProgress_spec_witness :
    calculateScrollProgress 500 2000 1000 = 500 / (2000 - 1000) :=
  (calculateScrollProgress_spec.1 500 2000 1000).2.2.2.2
    (by norm_num) (by norm_num) (by norm_num)

/-- C2: `calculateParallaxPosition` without bounds is the product of progress,
base range and speed multiplier; with a well-formed bounds window it is 0
below the window, the full offset above it, and the linear remap inside it;
the spec's concrete evaluations hold. -/
theorem calculateParallaxPosition_spec :
    (∀ p s b : ℚ, calculateParallaxPosition p s b none = p * b * s) ∧
    (∀ (p s b : ℚ) (bd : ParallaxBounds),
      0 ≤ bd.start → bd.start < bd.stop → bd.stop ≤ 1 →
      ((p < bd.start → calculateParallaxPosition p s b (some bd) = 0) ∧
       (bd.stop < p → calculateParallaxPosition p s b (some bd) = b * s) ∧
       (bd.start ≤ p → p ≤ bd.stop →
         calculateParallaxPosition p s b (some bd) =
           ((p - bd.start) / (bd.stop - bd.start)) * b * s))) ∧
    calculateParallaxPosition 1 (1/2) 800 none = 400 ∧
    calculateParallaxPosition (1/2) 1 800 none = 400 ∧
    calculateParallaxPosition (1/10) 1 800 (some ⟨3/10, 7/10⟩) = 0 ∧
    (∀ s b : ℚ, calculateParallaxPosition (9/10) s b (some ⟨3/10, 7/10⟩) = b * s) ∧
    calculateParallaxPosition (1/2) 1 800 (some ⟨3/10, 7/10⟩) = 400 := by
  refine ⟨fun p s b => by unfold calculateParallaxPosition; ring,
          fun p s b bd h0 hlt h1 => ⟨?_, ?_, ?_⟩, ?_, ?_, ?_, ?_, ?_⟩
  · intro hp
    unfold calculateParallaxPosition
    simp [hp]
  · intro hp
    have hnp : ¬ p < bd.start := by push_neg; linarith
    unfold calculateParallaxPosition
    simp only [hnp, if_false, hp, if_true]
    ring
  · intro hge hle
    have hnp : ¬ p < bd.start := not_lt.mpr hge
    have hne : ¬ bd.stop < p := not_lt.mpr hle
    unfold calculateParallaxPosition
    simp [hnp, hne]
  · norm_num [calculateParallaxPosition]
  · norm_num [calculateParallaxPosition]
  · norm_num [calculateParallaxPosition]
  · intro s b
    norm_num [calculateParallaxPosition]
  · norm_num [calculateParallaxPosition]

/-- Witness for C2: the in-window remap formula instantiated at progress 1/2
with the bounds window from 3/10 to 7/10, hypotheses discharged concretely. -/
theorem calculateParallaxPosition_spec_witness :
    calculateParallaxPosition (1/2) 1 800 (some ⟨3/10, 7/10⟩) =
      ((1/2 - 3/10) / (7/10 - 3/10)) * 800 * 1 :=
  ((calculateParallaxPosition_spec.2.1 (1/2) 1 800 ⟨3/10, 7/10⟩
    (by norm_num) (by norm_num) (by norm_num)).2.2 (by norm_num) (by norm_num))

/-- C3: in the no-bounds case the parallax offset is linear in the scroll
fraction: the position difference between two fractions equals
`(p2 - p1) * baseRange * s`, which is exactly `calculatePositionDelta`. -/
theorem calculateParallaxPosition_delta_linear (p1 p2 s b : ℚ) :
    calculateParallaxPosition p2 s b none - calculateParallaxPosition p1 s b none
      = (p2 - p1) * b * s ∧
    calculateParallaxPosition p2 s b none - calculateParallaxPosition p1 s b none
      = calculatePositionDelta (p2 - p1) s b := by
  unfold calculateParallaxPosition calculatePositionDelta
  constructor <;> ring

/-- Actions issued to GSAP timelines by the registry operations. -/
inductive TimelineAction where
  | pause (id : String)
  | resume (id : String)
  | kill (id : String)
deriving DecidableEq

/-- Registry entry (source interface `TimelineEntry`): the timeline's paused
state and the stored visibility flag. -/
structure TimelineEntry where
  paused : Bool
  isVisible : Bool
deriving DecidableEq

/-- State owned by `AnimationProvider`: the reduced-motion flag and the
timeline registry (source: `timelinesRef`, a `Map` keyed by id, modelled as an
insertion-ordered association list). -/
structure RegistryState where
  isReducedMotion : Bool
  timelines : List (String × TimelineEntry)
deriving DecidableEq

/-- Lookup in the registry (source: `timelinesRef.current.get(id)`). -/
def getEntry : List (String × TimelineEntry) → String → Option TimelineEntry
  | [], _ => none
  | (k, e) :: rest, id => if k = id then some e else getEntry rest id

/-- Insert or replace in the registry, preserving `Map` insertion order
(source: `timelinesRef.current.set(id, entry)`). -/
def setEntry : List (String × TimelineEntry) → String → TimelineEntry →
    List (String × TimelineEntry)
  | [], id, e => [(id, e)]
  | (k, v) :: rest, id, e =>
      if k = id then (id, e) :: rest else (k, v) :: setEntry rest id e

/-- Remove from the registry (source: `timelinesRef.current.delete(id)`). -/
def deleteEntry : List (String × TimelineEntry) → String →
    List (String × TimelineEntry)
  | [], _ => []
  | (k, v) :: rest, id => if k = id then rest else (k, v) :: deleteEntry rest id

/-- Embedding of `registerAnimation`: store the handle as visible, and pause
the timeline immediately when reduced motion is active. `tlPaused` is the
incoming timeline's own paused state. -/
def registerAnimation (s : RegistryState) (id : String) (tlPaused : Bool) :
    RegistryState × List TimelineAction :=
  if s.isReducedMotion then
    ({ s with timelines := setEntry s.timelines id ⟨true, true⟩ },
     [TimelineAction.pause id])
  else
    ({ s with timelines := setEntry s.timelines id ⟨tlPaused, true⟩ }, [])

/-- Embedding of `unregisterAnimation`: kill the timeline and drop the entry
when the id is registered, otherwise do nothing. -/
def unregisterAnimation (s : RegistryState) (id : String) :
    RegistryState × List TimelineAction :=
  match getEntry s.timelines id with
  | none => (s, [])
  | some _ =>
      ({ s with timelines := deleteEntry s.timelines id },
       [TimelineAction.kill id])

/-- Embedding of `setAnimationVisibility`: record the new flag, pause a
running timeline that became invisible, resume a paused one that became
visible unless reduced motion is active. -/
def setAnimationVisibility (s : RegistryState) (id : String) (isVisible : Bool) :
    RegistryState × List TimelineAction :=
  match getEntry s.timelines id with
  | none => (s, [])
  | some entry =>
      if !isVisible && !entry.paused then
        ({ s with timelines := setEntry s.timelines id ⟨true, isVisible⟩ },
         [TimelineAction.pause id])
      else if isVisible && entry.paused && !s.isReducedMotion then
        ({ s with timelines := setEntry s.timelines id ⟨false, isVisible⟩ },
         [TimelineAction.resume id])
      else
        ({ s with timelines :=
            setEntry s.timelines id ⟨entry.paused, isVisible⟩ }, [])

/-- Embedding of the `handleChange` sweep of the preference-change effect:
record the new preference, then pause every timeline (now reduced) or resume
exactly the visible ones (no longer reduced). -/
def handleMotionPreferenceChange (s : RegistryState) (eventMatches : Bool) :
    RegistryState × List TimelineAction :=
  let newTimelines := s.timelines.map fun kv =>
    if eventMatches then (kv.1, TimelineEntry.mk true kv.2.isVisible)
    else if kv.2.isVisible then (kv.1, TimelineEntry.mk false kv.2.isVisible)
    else kv
  let actions := s.timelines.filterMap fun kv =>
    if eventMatches then some (TimelineAction.pause kv.1)
    else if kv.2.isVisible then some (TimelineAction.resume kv.1)
    else none
  ({ isReducedMotion := eventMatches, timelines := newTimelines }, actions)

/-- Whether an action resumes a timeline. -/
def isResumeAction : TimelineAction → Bool
  | TimelineAction.resume _ => true
  | _ => false

/-- Holds when a trace issues only pause and kill actions, never a resume. -/
def noResume (actions : List TimelineAction) : Bool :=
  actions.all fun a => !isResumeAction a

/-- C4: with reduced motion active, no registry operation — registration,
visibility change, unregistration, or the preference-change sweep that keeps
motion reduced — ever issues a resume action, whatever the stored visibility
flags are. -/
theorem reducedMotion_never_resumes (s : RegistryState)
    (h : s.isReducedMotion = true) (id : String) (tlPaused isVisible : Bool) :
    noResume (registerAnimation s id tlPaused).2 = true ∧
    noResume (setAnimationVisibility s id isVisible).2 = true ∧
    noResume (unregisterAnimation s id).2 = true ∧
    noResume (handleMotionPreferenceChange s true).2 = true := by
  refine ⟨?_, ?_, ?_, ?_⟩
  · simp [registerAnimation, h, noResume, isResumeAction]
  · unfold setAnimationVisibility
    cases hget : getEntry s.timelines id with
    | none => simp [noResume]
    | some entry =>
        simp only [h]
        by_cases hv : isVisible <;> by_cases hp : entry.paused <;>
          simp [hv, hp, noResume, isResumeAction]
  · unfold unregisterAnimation
    cases hget : getEntry s.timelines id with
    | none => simp [noResume]
    | some entry => simp [noResume, isResumeAction]
  · simp only [handleMotionPreferenceChange, noResume, List.all_eq_true]
    intro a ha
    simp only [if_true, List.mem_filterMap] at ha
    obtain ⟨kv, _, hkv⟩ := ha
    simp only [if_pos rfl, Option.some.injEq] at hkv
    simp [← hkv, isResumeAction]

/-- Witness for C4: the invariant evaluated on a concrete reduced-motion
registry holding one visible, unpaused handle. -/
theorem reducedMotion_never_resumes_witness :
    noResume (registerAnimation ⟨true, [("a", ⟨false, true⟩)]⟩ "b" false).2 = true ∧
    noResume (setAnimationVisibility ⟨true, [("a", ⟨false, true⟩)]⟩ "a" true).2 = true ∧
    noResume (unregisterAnimation ⟨true, [("a", ⟨false, true⟩)]⟩ "a").2 = true ∧
    noResume (handleMotionPreferenceChange ⟨true, [("a", ⟨false, true⟩)]⟩ true).2 = true :=
  reducedMotion_never_resumes ⟨true, [("a", ⟨false, true⟩)]⟩ rfl "a" false true

/-- Inserting an entry makes it the one found by a subsequent lookup. -/
theorem getEntry_setEntry (l : List (String × TimelineEntry)) (id : String)
    (e : TimelineEntry) : getEntry (setEntry l id e) id = some e := by
  induction l with
  | nil => simp [setEntry, getEntry]
  | cons kv rest ih =>
      by_cases hk : kv.1 = id
      · simp [setEntry, hk, getEntry]
      · simp [setEntry, hk, getEntry, ih]

/-- The sweep toward reduced motion pauses every registered handle in
registry order. -/
theorem sweep_reduced_actions (l : List (String × TimelineEntry)) :
    (l.filterMap fun kv => some (TimelineAction.pause kv.1))
      = l.map fun kv => TimelineAction.pause kv.1 := by
  induction l with
  | nil => rfl
  | cons kv rest ih => simp [List.filterMap_cons, ih]

/-- The sweep away from reduced motion resumes exactly the handles whose
stored visibility flag is set, in registry order. -/
theorem sweep_unreduced_actions (l : List (String × TimelineEntry)) :
    (l.filterMap fun kv =>
        if kv.2.isVisible then some (TimelineAction.resume kv.1) else none)
      = (l.filter fun kv => kv.2.isVisible).map fun kv =>
          TimelineAction.resume kv.1 := by
  induction l with
  | nil => rfl
  | cons kv rest ih =>
      by_cases hv : kv.2.isVisible <;>
        simp [List.filterMap_cons, List.filter_cons, hv, ih]

/-- C6: registering stores the handle with the visibility flag set and, when
reduced motion is active, emits an immediate pause with the stored timeline
paused; the preference-change sweep pauses every registered handle when the
new preference is reduced, and resumes exactly the handles stored as visible
when it is not. -/
theorem registerAnimation_and_sweep_spec (s : RegistryState) (id : String)
    (tlPaused : Bool) :
    (∃ e, getEntry (registerAnimation s id tlPaused).1.timelines id = some e ∧
      e.isVisible = true ∧ (s.isReducedMotion = true → e.paused = true)) ∧
    (s.isReducedMotion = true →
      (registerAnimation s id tlPaused).2 = [TimelineAction.pause id]) ∧
    (handleMotionPreferenceChange s true).2
      = s.timelines.map (fun kv => TimelineAction.pause kv.1) ∧
    (handleMotionPreferenceChange s false).2
      = (s.timelines.filter fun kv => kv.2.isVisible).map
          (fun kv => TimelineAction.resume kv.1) := by
  refine ⟨?_, ?_, ?_, ?_⟩
  · unfold registerAnimation
    by_cases hr : s.isReducedMotion
    · exact ⟨⟨true, true⟩, by simp [hr, getEntry_setEntry], rfl, fun _ => rfl⟩
    · refine ⟨⟨tlPaused, true⟩, by simp [hr, getEntry_setEntry], rfl, fun h => ?_⟩
      exact absurd h (by simp [hr])
  · intro hr
    simp [registerAnimation, hr]
  · simpa [handleMotionPreferenceChange] using sweep_reduced_actions s.timelines
  · simpa [handleMotionPreferenceChange] using sweep_unreduced_actions s.timelines

/-- Witness for C6: the register-and-sweep contract evaluated on a concrete
reduced-motion registry with one visible and one invisible handle. -/
theorem registerAnimation_and_sweep_spec_witness :
    (∃ e, getEntry (registerAnimation
        ⟨true, [("a", ⟨false, true⟩), ("b", ⟨true, false⟩)]⟩ "c" false).1.timelines
        "c" = some e ∧
      e.isVisible = true ∧
      ((true : Bool) = true → e.paused = true)) ∧
    ((true : Bool) = true →
      (registerAnimation ⟨true, [("a", ⟨false, true⟩), ("b", ⟨true, false⟩)]⟩
        "c" false).2 = [TimelineAction.pause "c"]) ∧
    (handleMotionPreferenceChange
        ⟨true, [("a", ⟨false, true⟩), ("b", ⟨true, false⟩)]⟩ true).2
      = [("a", (⟨false, true⟩ : TimelineEntry)),
         ("b", ⟨true, false⟩)].map (fun kv => TimelineAction.pause kv.1) ∧
    (handleMotionPreferenceChange
        ⟨true, [("a", ⟨false, true⟩), ("b", ⟨true, false⟩)]⟩ false).2
      = ([("a", (⟨false, true⟩ : TimelineEntry)),
          ("b", ⟨true, false⟩)].filter fun kv => kv.2.isVisible).map
          (fun kv => TimelineAction.resume kv.1) :=
  registerAnimation_and_sweep_spec
    ⟨true, [("a", ⟨false, true⟩), ("b", ⟨true, false⟩)]⟩ "c" false

/-- Vertical extent of an element's bounding client rect. -/
structure Rect where
  top : ℚ
  bottom : ℚ
deriving DecidableEq

/-- The browser surface the scroll controller reads: the viewport height and
the `getElementById` lookup (`none` models a missing element). -/
structure DomEnv where
  viewportHeight : ℚ
  getElementById : String → Option Rect

/-- Side effects issued by `scrollToSection`. -/
inductive ScrollEffect where
  | warn (msg : String)
  | scrollIntoView (id : String)
deriving DecidableEq

/-- Warning text emitted for a missing navigation target. -/
def sectionNotFoundMessage (sectionId : String) : String :=
  "Section with id \x22" ++ sectionId ++ "\x22 not found"

/-- Embedding of `scrollToSection` (useScrollController.ts): scroll the
matching element into view, or warn and do nothing when it is missing. -/
def scrollToSection (env : DomEnv) (sectionId : String) : List ScrollEffect :=
  match env.getElementById sectionId with
  | none => [ScrollEffect.warn (sectionNotFoundMessage sectionId)]
  | some _ => [ScrollEffect.scrollIntoView sectionId]

/-- A key absent from the association list is not found. -/
theorem getEntry_eq_none_of_not_mem (l : List (String × TimelineEntry))
    (id : String) (h : id ∉ l.map Prod.fst) : getEntry l id = none := by
  induction l with
  | nil => rfl
  | cons kv rest ih =>
      simp only [List.map_cons, List.mem_cons] at h
      push_neg at h
      simp only [getEntry]
      rw [if_neg (fun hk => h.1 hk.symm)]
      exact ih h.2

/-- Deleting a key from a registry with distinct keys removes it from the
reach of lookups. -/
theorem getEntry_deleteEntry (l : List (String × TimelineEntry)) (id : String)
    (h : (l.map Prod.fst).Nodup) : getEntry (deleteEntry l id) id = none := by
  induction l with
  | nil => rfl
  | cons kv rest ih =>
      simp only [List.map_cons, List.nodup_cons] at h
      by_cases hk : kv.1 = id
      · simp only [deleteEntry, hk, if_true]
        exact getEntry_eq_none_of_not_mem rest id (hk ▸ h.1)
      · simp only [deleteEntry, hk, if_false, getEntry]
        exact ih h.2

/-- C9: unregistering or changing visibility of an unknown id leaves the
registry untouched with no timeline action; unregistering a known id kills
its timeline and (given distinct keys, as a `Map` guarantees) removes the
entry; navigating to a missing section emits only the warning, no scroll. -/
theorem unknown_target_noops (s : RegistryState) (id : String)
    (isVisible : Bool) (env : DomEnv) (sectionId : String) :
    (getEntry s.timelines id = none →
      unregisterAnimation s id = (s, []) ∧
      setAnimationVisibility s id isVisible = (s, [])) ∧
    (∀ e, getEntry s.timelines id = some e →
      (s.timelines.map Prod.fst).Nodup →
      (unregisterAnimation s id).2 = [TimelineAction.kill id] ∧
      getEntry (unregisterAnimation s id).1.timelines id = none) ∧
    (env.getElementById sectionId = none →
      scrollToSection env sectionId
        = [ScrollEffect.warn (sectionNotFoundMessage sectionId)]) := by
  refine ⟨fun h => ⟨?_, ?_⟩, fun e he hnd => ⟨?_, ?_⟩, fun h => ?_⟩
  · simp [unregisterAnimation, h]
  · simp [setAnimationVisibility, h]
  · simp [unregisterAnimation, he]
  · simp only [unregisterAnimation, he]
    exact getEntry_deleteEntry s.timelines id hnd
  · simp [scrollToSection, h]

/-- Witness for C9: the no-op and disposal behaviours evaluated on a concrete
one-entry registry and an element-free DOM environment. -/
theorem unknown_target_noops_witness :
    (getEntry [("a", (⟨false, true⟩ : TimelineEntry))] "b" = none →
      unregisterAnimation ⟨false, [("a", ⟨false, true⟩)]⟩ "b"
        = (⟨false, [("a", ⟨false, true⟩)]⟩, []) ∧
      setAnimationVisibility ⟨false, [("a", ⟨false, true⟩)]⟩ "b" true
        = (⟨false, [("a", ⟨false, true⟩)]⟩, [])) ∧
    (∀ e, getEntry [("a", (⟨false, true⟩ : TimelineEntry))] "b" = some e →
      (([("a", (⟨false, true⟩ : TimelineEntry))].map Prod.fst).Nodup) →
      (unregisterAnimation ⟨false, [("a", ⟨false, true⟩)]⟩ "b").2
        = [TimelineAction.kill "b"] ∧
      getEntry (unregisterAnimation
        ⟨false, [("a", ⟨false, true⟩)]⟩ "b").1.timelines "b" = none) ∧
    ((⟨800, fun _ => none⟩ : DomEnv).getElementById "missing-id" = none →
      scrollToSection ⟨800, fun _ => none⟩ "missing-id"
        = [ScrollEffect.warn (sectionNotFoundMessage "missing-id")]) :=
  unknown_target_noops ⟨false, [("a", ⟨false, true⟩)]⟩ "b" true
    ⟨800, fun _ => none⟩ "missing-id"

/-- Axis of a parallax layer's movement. -/
inductive ParallaxDirection where
  | vertical
  | horizontal
deriving DecidableEq

/-- Embedding of `ParallaxLayerConfig` (useParallax.ts). -/
structure ParallaxLayerConfig where
  id : String
  speedMultiplier : ℚ
  direction : ParallaxDirection
  bounds : Option ParallaxBounds
deriving DecidableEq

/-- Embedding of `ParallaxLayerState` (useParallax.ts). -/
structure ParallaxLayerState where
  id : String
  position : ℚ
  speedMultiplier : ℚ
  direction : ParallaxDirection
deriving DecidableEq

/-- The layer-state map the `useParallax` effects settle on for a given
scroll progress: position 0 when disabled, otherwise the computed parallax
position (source: the state initializer and both update effects). -/
def computeLayerStates (layers : List ParallaxLayerConfig)
    (scrollProgress baseRange : ℚ) (isDisabled : Bool) :
    List (String × ParallaxLayerState) :=
  layers.map fun layer =>
    (layer.id,
     { id := layer.id
       position :=
         if isDisabled then 0
         else calculateParallaxPosition scrollProgress layer.speedMultiplier
                baseRange layer.bounds
       speedMultiplier := layer.speedMultiplier
       direction := layer.direction })

/-- Lookup in the layer-state map (source: `layerStates.get(layerId)`). -/
def lookupLayer : List (String × ParallaxLayerState) → String →
    Option ParallaxLayerState
  | [], _ => none
  | (k, st) :: rest, id => if k = id then some st else lookupLayer rest id

/-- Embedding of `getLayerPosition`: the stored position, defaulting to 0 for
an unknown layer (source: `state?.position ?? 0`). -/
def getLayerPosition (layerStates : List (String × ParallaxLayerState))
    (layerId : String) : ℚ :=
  match lookupLayer layerStates layerId with
  | none => 0
  | some st => st.position

/-- The two style fields `getLayerStyle` can emit; the transform is modelled
structurally as the axis paired with the pixel offset (source emits
`translateY` or `translateX` of the offset). -/
structure CSSProperties where
  transform : Option (ParallaxDirection × ℚ)
  willChange : Option String
deriving DecidableEq

/-- The empty style object. -/
def emptyStyle : CSSProperties := { transform := none, willChange := none }

/-- Name of the property hinted through `willChange`. -/
def transformProperty : String := "transform"

/-- Embedding of `getLayerStyle`: empty when the layer is unknown or parallax
is disabled, otherwise a transform along the layer's axis plus the
`willChange` hint. -/
def getLayerStyle (layerStates : List (String × ParallaxLayerState))
    (isDisabled : Bool) (layerId : String) : CSSProperties :=
  match lookupLayer layerStates layerId with
  | none => emptyStyle
  | some st =>
      if isDisabled then emptyStyle
      else { transform := some (st.direction, st.position)
             willChange := some transformProperty }

/-- Aggregate disabled flag of `useParallax`
(source: `disabled || isReducedMotion`). -/
def useParallaxIsDisabled (disabled isReducedMotion : Bool) : Bool :=
  disabled || isReducedMotion

/-- In a disabled layer-state map every stored position is 0. -/
theorem lookupLayer_computeLayerStates_disabled
    (layers : List ParallaxLayerConfig) (p b : ℚ) (id : String)
    (st : ParallaxLayerState)
    (h : lookupLayer (computeLayerStates layers p b true) id = some st) :
    st.position = 0 := by
  induction layers with
  | nil => simp [computeLayerStates, lookupLayer] at h
  | cons layer rest ih =>
      simp only [computeLayerStates, List.map_cons, lookupLayer] at h
      by_cases hk : layer.id = id
      · rw [if_pos hk] at h
        cases h
        rfl
      · rw [if_neg hk] at h
        exact ih h

/-- C5: when parallax is disabled — by the explicit option or by reduced
motion — every layer position reads as 0 and every layer style is the empty
object, for every layer id and every scroll fraction. -/
theorem disabled_parallax_zero (layers : List ParallaxLayerConfig)
    (scrollProgress baseRange : ℚ) (disabled isReducedMotion : Bool)
    (h : disabled = true ∨ isReducedMotion = true) (layerId : String) :
    getLayerPosition (computeLayerStates layers scrollProgress baseRange
      (useParallaxIsDisabled disabled isReducedMotion)) layerId = 0 ∧
    getLayerStyle (computeLayerStates layers scrollProgress baseRange
        (useParallaxIsDisabled disabled isReducedMotion))
      (useParallaxIsDisabled disabled isReducedMotion) layerId = emptyStyle := by
  have hd : useParallaxIsDisabled disabled isReducedMotion = true := by
    rcases h with h | h <;> simp [useParallaxIsDisabled, h]
  rw [hd]
  constructor
  · unfold getLayerPosition
    cases hlook : lookupLayer
        (computeLayerStates layers scrollProgress baseRange true) layerId with
    | none => rfl
    | some st =>
        exact lookupLayer_computeLayerStates_disabled layers scrollProgress
          baseRange layerId st hlook
  · unfold getLayerStyle
    cases hlook : lookupLayer
        (computeLayerStates layers scrollProgress baseRange true) layerId with
    | none => rfl
    | some st => simp

/-- Witness for C5: a concrete two-layer configuration under reduced motion
at scroll fraction 1/2 yields position 0 and the empty style. -/
theorem disabled_parallax_zero_witness :
    getLayerPosition (computeLayerStates
      [⟨"clouds", 1/2, ParallaxDirection.vertical, none⟩,
       ⟨"hills", 2, ParallaxDirection.horizontal, some ⟨3/10, 7/10⟩⟩]
      (1/2) 800 (useParallaxIsDisabled false true)) "clouds" = 0 ∧
    getLayerStyle (computeLayerStates
      [⟨"clouds", 1/2, ParallaxDirection.vertical, none⟩,
       ⟨"hills", 2, ParallaxDirection.horizontal, some ⟨3/10, 7/10⟩⟩]
      (1/2) 800 (useParallaxIsDisabled false true))
      (useParallaxIsDisabled false true) "clouds" = emptyStyle :=
  disabled_parallax_zero
    [⟨"clouds", 1/2, ParallaxDirection.vertical, none⟩,
     ⟨"hills", 2, ParallaxDirection.horizontal, some ⟨3/10, 7/10⟩⟩]
    (1/2) 800 false true (Or.inr rfl) "clouds"

/-- C10: a layer id absent from the layer-state map is a defined edge case:
its position reads as 0 and its style is the empty object, disabled or not. -/
theorem unknown_layer_defaults (layerStates : List (String × ParallaxLayerState))
    (layerId : String) (isDisabled : Bool)
    (h : lookupLayer layerStates layerId = none) :
    getLayerPosition layerStates layerId = 0 ∧
    getLayerStyle layerStates isDisabled layerId = emptyStyle := by
  constructor
  · unfold getLayerPosition
    rw [h]
  · unfold getLayerStyle
    rw [h]

/-- Witness for C10: querying an id missing from a concrete one-layer state
map returns 0 and the empty style. -/
theorem unknown_layer_defaults_witness :
    getLayerPosition [("clouds",
      (⟨"clouds", 123, 1/2, ParallaxDirection.vertical⟩ : ParallaxLayerState))]
      "nope" = 0 ∧
    getLayerStyle [("clouds",
      (⟨"clouds", 123, 1/2, ParallaxDirection.vertical⟩ : ParallaxLayerState))]
      false "nope" = emptyStyle :=
  unknown_layer_defaults
    [("clouds", ⟨"clouds", 123, 1/2, ParallaxDirection.vertical⟩)]
    "nope" false (by simp [lookupLayer])

/-- Score of a section against the viewport (useScrollController.ts): the
visible overlap height minus half the distance between the section's center
and the viewport's center. -/
def sectionScore (viewportHeight : ℚ) (rect : Rect) : ℚ :=
  let viewportCenter := viewportHeight / 2
  let visibleTop := max 0 rect.top
  let visibleBottom := min viewportHeight rect.bottom
  let visibleHeight := max 0 (visibleBottom - visibleTop)
  let centerDistance := |(rect.top + rect.bottom) / 2 - viewportCenter|
  visibleHeight - centerDistance * (1/2)

/-- Comparison against the running best score, whose initial value is the
source's negative infinity (modelled as `none`, below every rational). -/
def bestScoreLt : Option ℚ → ℚ → Bool
  | none, _ => true
  | some b, s => decide (b < s)

/-- The scan loop of `detectCurrentSection`: skip ids without an element,
adopt a candidate only when its score strictly beats the running best. -/
def detectLoop (env : DomEnv) : List String → String → Option ℚ → String
  | [], best, _ => best
  | id :: rest, best, bestScore =>
      match env.getElementById id with
      | none => detectLoop env rest best bestScore
      | some rect =>
          if bestScoreLt bestScore (sectionScore env.viewportHeight rect) then
            detectLoop env rest id (some (sectionScore env.viewportHeight rect))
          else detectLoop env rest best bestScore

/-- Embedding of `detectCurrentSection` (useScrollController.ts): scan the
ordered ids starting from the first id (or the empty string) as best. -/
def detectCurrentSection (env : DomEnv) (sectionIds : List String) : String :=
  detectLoop env sectionIds (sectionIds.headD "") none

/-- The scored candidates of a scan: ids with a renderable element, paired
with their scores, in input order. -/
def candidates (env : DomEnv) : List String → List (String × ℚ)
  | [] => []
  | id :: rest =>
      match env.getElementById id with
      | none => candidates env rest
      | some rect =>
          (id, sectionScore env.viewportHeight rect) :: candidates env rest

/-- The scan loop restricted to the scored candidates. -/
def loopC : List (String × ℚ) → String → Option ℚ → String
  | [], best, _ => best
  | c :: rest, best, bs =>
      if bestScoreLt bs c.2 then loopC rest c.1 (some c.2)
      else loopC rest best bs

/-- Specification of the winner, written from the spec's words: the winner
occurs in the candidate list with some score, every earlier candidate scores
strictly less, and no candidate scores more. -/
def isFirstMax (cs : List (String × ℚ)) (winner : String) : Prop :=
  ∃ sx pre post, cs = pre ++ (winner, sx) :: post ∧
    (∀ c ∈ pre, c.2 < sx) ∧ (∀ c ∈ cs, c.2 ≤ sx)

/-- The scan over ids agrees with the scan over the scored candidates. -/
theorem detectLoop_eq_loopC (env : DomEnv) (ids : List String) :
    ∀ best bs, detectLoop env ids best bs = loopC (candidates env ids) best bs := by
  induction ids with
  | nil => intro best bs; rfl
  | cons id rest ih =>
      intro best bs
      cases henv : env.getElementById id with
      | none => simp only [detectLoop, candidates, henv]; exact ih best bs
      | some rect =>
          simp only [detectLoop, candidates, henv, loopC]
          by_cases hb : bestScoreLt bs (sectionScore env.viewportHeight rect) = true
          · rw [if_pos hb, if_pos hb]; exact ih _ _
          · rw [if_neg hb, if_neg hb]; exact ih _ _

/-- A running best that already dominates every remaining score survives. -/
theorem loopC_all_le (cs : List (String × ℚ)) :
    ∀ (id : String) (s : ℚ), (∀ c ∈ cs, c.2 ≤ s) → loopC cs id (some s) = id := by
  induction cs with
  | nil => intro id s _; rfl
  | cons c rest ih =>
      intro id s h
      have hc : ¬ s < c.2 := not_lt.mpr (h c (List.mem_cons_self c rest))
      have hb : bestScoreLt (some s) c.2 = false := by
        simp [bestScoreLt, hc]
      simp only [loopC, hb, Bool.false_eq_true, if_false]
      exact ih id s fun x hx => h x (List.mem_cons_of_mem c hx)

/-- Once the running best is strictly below an upcoming first maximum, the
scan ends on that first maximum. -/
theorem loopC_first_max (pre : List (String × ℚ)) :
    ∀ (x : String) (sx : ℚ) (post : List (String × ℚ)) (id : String) (s : ℚ),
      s < sx → (∀ c ∈ pre, c.2 < sx) → (∀ c ∈ post, c.2 ≤ sx) →
      loopC (pre ++ (x, sx) :: post) id (some s) = x := by
  induction pre with
  | nil =>
      intro x sx post id s hs _ hpost
      have hb : bestScoreLt (some s) sx = true := by simp [bestScoreLt, hs]
      simp only [List.nil_append, loopC, hb, if_true]
      exact loopC_all_le post x sx hpost
  | cons c pre2 ih =>
      intro x sx post id s hs hpre hpost
      have hcx : c.2 < sx := hpre c (List.mem_cons_self c pre2)
      have hpre2 : ∀ y ∈ pre2, y.2 < sx :=
        fun y hy => hpre y (List.mem_cons_of_mem c hy)
      by_cases hcs : s < c.2
      · have hb : bestScoreLt (some s) c.2 = true := by simp [bestScoreLt, hcs]
        simp only [List.cons_append, loopC, hb, if_true]
        exact ih x sx post c.1 c.2 hcx hpre2 hpost
      · have hb : bestScoreLt (some s) c.2 = false := by simp [bestScoreLt, hcs]
        simp only [List.cons_append, loopC, hb, Bool.false_eq_true, if_false]
        exact ih x sx post id s hs hpre2 hpost

/-- Every nonempty scored list has a first maximum. -/
theorem exists_first_max (cs : List (String × ℚ)) (h : cs ≠ []) :
    ∃ pre x sx post, cs = pre ++ (x, sx) :: post ∧
      (∀ c ∈ pre, c.2 < sx) ∧ (∀ c ∈ cs, c.2 ≤ sx) := by
  induction cs with
  | nil => exact absurd rfl h
  | cons c rest ih =>
      cases rest with
      | nil =>
          refine ⟨[], c.1, c.2, [], by simp, by simp, ?_⟩
          intro y hy
          have : y = c := by simpa using hy
          rw [this]
      | cons d ds =>
          obtain ⟨pre, x, sx, post, heq, hpre, hall⟩ := ih (by simp)
          by_cases hc : sx ≤ c.2
          · refine ⟨[], c.1, c.2, d :: ds, by simp, by simp, ?_⟩
            intro y hy
            rcases List.mem_cons.mp hy with hy | hy
            · rw [hy]
            · exact le_trans (hall y hy) hc
          · push_neg at hc
            refine ⟨c :: pre, x, sx, post, ?_, ?_, ?_⟩
            · rw [heq]; rfl
            · intro y hy
              rcases List.mem_cons.mp hy with hy | hy
              · rw [hy]; exact hc
              · exact hpre y hy
            · intro y hy
              rcases List.mem_cons.mp hy with hy | hy
              · rw [hy]; exact le_of_lt hc
              · exact hall y hy

/-- Concrete DOM of the spec scenario: an 800px viewport with `hero` at top
-600 and height 800, `education` at top 200 and height 800. -/
def specScenarioEnv : DomEnv :=
  ⟨800, fun id =>
    if id = "hero" then some ⟨-600, 200⟩
    else if id = "education" then some ⟨200, 1000⟩
    else none⟩

/-- C7: whenever some id has a renderable element, `detectCurrentSection`
returns the candidate with the highest score, ties broken by earliest
position in the input; in the spec scenario it returns `education`. -/
theorem detectCurrentSection_spec :
    (∀ (env : DomEnv) (ids : List String), candidates env ids ≠ [] →
      isFirstMax (candidates env ids) (detectCurrentSection env ids)) ∧
    detectCurrentSection specScenarioEnv [ "hero", "education" ] = "education" := by
  constructor
  · intro env ids hne
    obtain ⟨pre, x, sx, post, heq, hpre, hall⟩ := exists_first_max _ hne
    have hpost : ∀ c ∈ post, c.2 ≤ sx := by
      intro c hc
      apply hall
      rw [heq]
      exact List.mem_append_right pre (List.mem_cons_of_mem _ hc)
    have hdet : detectCurrentSection env ids = x := by
      unfold detectCurrentSection
      rw [detectLoop_eq_loopC, heq]
      cases pre with
      | nil =>
          simp only [List.nil_append, loopC, bestScoreLt, if_true]
          exact loopC_all_le post x sx hpost
      | cons c pre2 =>
          have hpre2 : ∀ y ∈ pre2, y.2 < sx :=
            fun y hy => hpre y (List.mem_cons_of_mem c hy)
          have hcx : c.2 < sx := hpre c (List.mem_cons_self c pre2)
          simp only [List.cons_append, loopC, bestScoreLt, if_true]
          exact loopC_first_max pre2 x sx post c.1 c.2 hcx hpre2 hpost
    rw [hdet]
    exact ⟨sx, pre, post, heq, hpre, hall⟩
  · have hhero : specScenarioEnv.getElementById "hero" = some ⟨-600, 200⟩ := rfl
    have hedu : specScenarioEnv.getElementById "education"
        = some ⟨200, 1000⟩ := rfl
    have hs1 : sectionScore specScenarioEnv.viewportHeight ⟨-600, 200⟩
        = -100 := by
      show sectionScore 800 ⟨-600, 200⟩ = -100
      norm_num [sectionScore, max_def, min_def, abs_eq_max_neg]
    have hs2 : sectionScore specScenarioEnv.viewportHeight ⟨200, 1000⟩
        = 500 := by
      show sectionScore 800 ⟨200, 1000⟩ = 500
      norm_num [sectionScore, max_def, min_def, abs_eq_max_neg]
    show detectLoop specScenarioEnv [ "hero", "education" ] "hero" none
        = "education"
    simp only [detectLoop, hhero, hedu, hs1, hs2, bestScoreLt]
    norm_num

/-- Witness for C7: the first-maximum characterization instantiated on the
concrete spec-scenario environment, whose candidate list is nonempty. -/
theorem detectCurrentSection_spec_witness :
    isFirstMax (candidates specScenarioEnv [ "hero", "education" ])
      (detectCurrentSection specScenarioEnv [ "hero", "education" ]) :=
  detectCurrentSection_spec.1 specScenarioEnv [ "hero", "education" ]
    (by
      have hc : candidates specScenarioEnv [ "hero", "education" ]
          = [("hero", sectionScore specScenarioEnv.viewportHeight ⟨-600, 200⟩),
             ("education",
               sectionScore specScenarioEnv.viewportHeight ⟨200, 1000⟩)] := rfl
      rw [hc]
      exact List.cons_ne_nil _ _)

/-- A scan over ids none of which has an element keeps the initial best. -/
theorem detectLoop_all_missing (env : DomEnv) (ids : List String)
    (h : ∀ i ∈ ids, env.getElementById i = none) :
    ∀ best bs, detectLoop env ids best bs = best := by
  induction ids with
  | nil => intro best bs; rfl
  | cons id rest ih =>
      intro best bs
      have hid : env.getElementById id = none := h id (List.mem_cons_self id rest)
      simp only [detectLoop, hid]
      exact ih (fun i hi => h i (List.mem_cons_of_mem id hi)) best bs

/-- C8: `detectCurrentSection` on the empty list returns the empty string,
and on a nonempty list none of whose ids has a renderable element it falls
back to the first id of the list. -/
theorem detectCurrentSection_fallbacks :
    (∀ env : DomEnv, detectCurrentSection env [] = "") ∧
    (∀ (env : DomEnv) (id : String) (rest : List String),
      (∀ i ∈ id :: rest, env.getElementById i = none) →
      detectCurrentSection env (id :: rest) = id) := by
  constructor
  · intro env; rfl
  · intro env id rest h
    unfold detectCurrentSection
    rw [detectLoop_all_missing env (id :: rest) h]
    rfl

/-- Witness for C8: an element-free environment applied to the concrete
list of two ids falls back to the first one. -/
theorem detectCurrentSection_fallbacks_witness :
    detectCurrentSection ⟨600, fun _ => none⟩ [ "alpha", "beta" ] = "alpha" :=
  detectCurrentSection_fallbacks.2 ⟨600, fun _ => none⟩ "alpha" [ "beta" ]
    (fun _ _ => rfl)
